import Mathlib

/-
Verification of the object-versioning and effects-computation core described
in spec.md, checked against the repository's integration test suite
(src/crates/sui-core/src/unit_tests/move_integration_tests.rs).

The repository snapshot contains the test suite but not the implementation of
the core components (Version Assigner, Ownership Model, Argument Usage
Validator, Effects Builder, Publication Gate).  Each missing component is
therefore modelled from the specification's contract for it, and every model
is checked below against the concrete outcomes the test suite pins down
(effect-set sizes, error kinds, and error indices).
-/

/- ## Data model (spec section 3) -/

/-- Globally unique identifier of a logical object. -/
abbrev ObjectID := Nat

/-- Logical clock value of an object; totally ordered, strictly increasing on
every state change. -/
abbrev Version := Nat

/-- Content fingerprint of an object's state, or one of the two sentinel
values: WRAPPED (object embedded in another object) and DELETED (object no
longer exists). -/
inductive Digest where
  | live (fingerprint : Nat)
  | wrappedSentinel
  | deletedSentinel
deriving DecidableEq

/-- Caller-visible identity of an object at a point in time:
(ObjectID, Version, Digest). -/
abbrev ObjectRef := ObjectID × Version × Digest

/-- Tagged representation of who may authorize mutation of an object. -/
inductive Owner where
  | addressOwner (account : Nat)
  | objectOwner (parentFieldId : ObjectID)
  | shared (initialSharedVersion : Version)
  | immutable
deriving DecidableEq

/- ## Version Assigner (spec section 4.1) -/

/-- Maximum of a list of versions (0 for the empty list). -/
def maxList (vs : List Nat) : Nat := vs.foldr max 0

/-- Modelled from the spec: `SequenceNumber::lamport_increment`, the Version
Assigner used by the test suite but whose implementation is not part of this
snapshot.  Given the set of versions of every object a write causally depends
on, it returns 1 + max of that set (a Lamport-style logical clock). -/
def lamport_increment (vs : List Nat) : Nat := maxList vs + 1

/-- Kind of write event a transaction performs on an object.  Per the spec the
version bump applies uniformly to created, mutated, wrapped and unwrapped
objects. -/
inductive WriteKind where
  | createK
  | mutateK
  | wrapK
  | unwrapK
deriving DecidableEq

/-- Digest attached to an object after a write: the WRAPPED sentinel for a
wrapping write, a live digest otherwise. -/
def digestAfter : WriteKind → Nat → Digest
  | .wrapK, _ => .wrappedSentinel
  | .createK, d => .live d
  | .mutateK, d => .live d
  | .unwrapK, d => .live d

/-- Modelled from the spec: a transaction's write set together with the
versions of every object the writes causally depend on (each input object's
prior version, including the gas object's). -/
structure TxWriteSet where
  inputVersions : List Version
  writes : List (ObjectID × WriteKind × Nat)

/-- Modelled from the spec: the Version Assigner stamps every written object
with the causal successor of the transaction's input versions. -/
def assignVersions (t : TxWriteSet) : List ObjectRef :=
  t.writes.map fun w => (w.1, lamport_increment t.inputVersions, digestAfter w.2.1 w.2.2)

/- ## Object lifecycle: wrapping and unwrapping (spec sections 3 and 4.1) -/

/-- Snapshot of a single object: id, version, digest. -/
structure ObjSnapshot where
  id : ObjectID
  version : Version
  digest : Digest
deriving DecidableEq

/-- Modelled from the spec: wrapping an object in a transaction whose other
causal dependencies have versions `deps` bumps the version like a mutation and
attaches the WRAPPED sentinel digest. -/
def wrapStep (o : ObjSnapshot) (deps : List Version) : ObjSnapshot :=
  ⟨o.id, lamport_increment (o.version :: deps), .wrappedSentinel⟩

/-- Modelled from the spec: unwrapping re-extracts the object, bumps the
version again and restores a live digest. -/
def unwrapStep (o : ObjSnapshot) (deps : List Version) (d : Nat) : ObjSnapshot :=
  ⟨o.id, lamport_increment (o.version :: deps), .live d⟩

/- ## Effects Builder (spec section 4.4) -/

/-- State of a touched object id as seen at the start of a transaction:
it had a prior top-level version, it was known only as embedded (wrapped)
state, or it was not known at all. -/
inductive PreState where
  | liveAt (v : Version)
  | embedded
  | absent
deriving DecidableEq

/-- Raw post-transaction write for one object id: written with a live digest,
written as wrapped (embedded into a parent), or removed entirely. -/
inductive PostWrite where
  | outLive (fingerprint : Nat)
  | outWrapped
  | outRemoved
deriving DecidableEq

/-- Classification sets of the effects record. -/
inductive EffectClass where
  | createdC
  | mutatedC
  | wrappedC
  | unwrappedC
  | deletedC
  | unwrappedThenDeletedC
  | unclassified
deriving DecidableEq

/-- Modelled from the spec: the Effects Builder's per-object classification
rule (spec section 4.4, items 1-6, and the discriminating condition of
section 9: an object that first ever appears as embedded and was never
independently live is not classified). -/
def classify : PreState → PostWrite → EffectClass
  | .absent, .outLive _ => .createdC
  | .liveAt _, .outLive _ => .mutatedC
  | .liveAt _, .outWrapped => .wrappedC
  | .embedded, .outLive _ => .unwrappedC
  | .liveAt _, .outRemoved => .deletedC
  | .embedded, .outRemoved => .unwrappedThenDeletedC
  | .absent, .outWrapped => .unclassified
  | .absent, .outRemoved => .unclassified
  | .embedded, .outWrapped => .unclassified

/-- Lookup of a touched id's pre-transaction state; ids not in the table were
not known before the transaction. -/
def lookupPre : List (ObjectID × PreState) → ObjectID → PreState
  | [], _ => .absent
  | (j, s) :: rest, i => if i = j then s else lookupPre rest i

/-- Modelled from the spec: the Effects Builder's input, the pre-transaction
object table restricted to touched ids plus the post-transaction raw write
set from execution. -/
structure TxDiff where
  pre : List (ObjectID × PreState)
  writes : List (ObjectID × PostWrite)

def TxDiff.preOf (d : TxDiff) (i : ObjectID) : PreState :=
  lookupPre d.pre i

/-- Ids of the write set falling into one classification set. -/
def TxDiff.ofClass (d : TxDiff) (c : EffectClass) : List ObjectID :=
  (d.writes.filter fun w => decide (classify (d.preOf w.1) w.2 = c)).map (·.1)

def TxDiff.created (d : TxDiff) : List ObjectID := d.ofClass .createdC

def TxDiff.mutated (d : TxDiff) : List ObjectID := d.ofClass .mutatedC

def TxDiff.wrapped (d : TxDiff) : List ObjectID := d.ofClass .wrappedC

def TxDiff.unwrapped (d : TxDiff) : List ObjectID := d.ofClass .unwrappedC

def TxDiff.deleted (d : TxDiff) : List ObjectID := d.ofClass .deletedC

def TxDiff.unwrapped_then_deleted (d : TxDiff) : List ObjectID :=
  d.ofClass .unwrappedThenDeletedC

/-- Modelled from the spec: `modified_at_versions` records, for every touched
object with a pre-image version (including the gas object), the pair of its
id and that version. -/
def TxDiff.modified_at_versions (d : TxDiff) : List (ObjectID × Version) :=
  d.writes.filterMap fun w =>
    match d.preOf w.1 with
    | .liveAt v => some (w.1, v)
    | .embedded => none
    | .absent => none

/-- The transaction shape shared by the two cited parent-deletion tests: the
gas object is mutated, and a parent with a prior top-level version is removed
together with its one wrapped child (known before the transaction only as
embedded state). -/
def deleteParentDiff (g p c : ObjectID) (vg vp : Version) (dg : Nat) : TxDiff :=
  ⟨[(g, .liveAt vg), (p, .liveAt vp), (c, .embedded)],
   [(g, .outLive dg), (p, .outRemoved), (c, .outRemoved)]⟩

/- ## Argument Usage Validator (spec section 4.3) and command input checks -/

/-- Element type tag for a vector-of-objects construction. -/
abbrev TypeTagId := Nat

/-- An argument of a programmable transaction command. -/
inductive CallArg where
  | pure (bytes : List Nat)
  | obj (byRef : Bool) (id : ObjectID)
  | result (cmd : Nat)
deriving DecidableEq

/-- A programmable transaction command: a contract call, a vector-of-objects
construction (MakeMoveVec), or a module publish. -/
inductive TxCommand where
  | moveCall (args : List CallArg)
  | makeMoveVec (tag : Option TypeTagId) (elems : List ObjectID)
  | publishCmd (modules : List (List Nat))
deriving DecidableEq

/-- Object-valued argument positions of a call's argument list, with their
argument indices. -/
def collectObjArgs : Nat → List CallArg → List (Nat × ObjectID)
  | _, [] => []
  | i, .obj _ x :: rest => (i, x) :: collectObjArgs (i + 1) rest
  | i, .pure _ :: rest => collectObjArgs (i + 1) rest
  | i, .result _ :: rest => collectObjArgs (i + 1) rest

/-- Pairs each list element with its position, starting at a given index. -/
def withIdx : Nat → List ObjectID → List (Nat × ObjectID)
  | _, [] => []
  | i, x :: rest => (i, x) :: withIdx (i + 1) rest

/-- Every object use of a command, in argument order, with argument indices:
scalar object arguments of a call, and every element of a vector-of-objects
construction. -/
def TxCommand.objectUses : TxCommand → List (Nat × ObjectID)
  | .moveCall args => collectObjArgs 0 args
  | .makeMoveVec _ elems => withIdx 0 elems
  | .publishCmd _ => []

/-- Error kinds attached to a command argument. -/
inductive CommandArgumentError where
  | invalidUsageOfTakenValue
  | invalidBCSBytes
deriving DecidableEq

/-- A command-argument failure at a specific (command index, argument index),
as in `ExecutionFailureStatus::CommandArgumentError`. -/
structure ArgError where
  cmdIdx : Nat
  argIdx : Nat
  kind : CommandArgumentError
deriving DecidableEq

/-- Modelled from the spec: per-command walk of the object uses, maintaining
the transaction-scoped set of object ids that already appeared in an
object-valued argument; the first use of an id that already appeared is the
first offending (command index, argument index) and is rejected with
`InvalidUsageOfTakenValue`. -/
def scanUses (cmdIdx : Nat) (taken : List ObjectID) :
    List (Nat × ObjectID) → Except ArgError (List ObjectID)
  | [] => .ok taken
  | (ai, x) :: rest =>
      if x ∈ taken then .error ⟨cmdIdx, ai, .invalidUsageOfTakenValue⟩
      else scanUses cmdIdx (x :: taken) rest

/-- Modelled from the spec: the validator walks the ordered command list once,
threading the taken set through the per-command scans. -/
def scanCommands (i : Nat) (taken : List ObjectID) :
    List TxCommand → Except ArgError (List ObjectID)
  | [] => .ok taken
  | c :: cs =>
      match scanUses i taken c.objectUses with
      | .error e => .error e
      | .ok t2 => scanCommands (i + 1) t2 cs

/-- Modelled from the spec: whole-transaction argument usage validation. -/
def validateArgUsage (cmds : List TxCommand) : Except ArgError Unit :=
  match scanCommands 0 [] cmds with
  | .error e => .error e
  | .ok _ => .ok ()

/-- Input errors detected before execution (spec section 7): the caller's
request is malformed and the transaction aborts with no state change. -/
inductive UserInputError where
  | emptyCommandInput
  | objectNotFound
deriving DecidableEq

/-- Modelled from the spec: pre-execution input check of a single command.  A
vector-of-objects construction with no element type tag and no elements is
rejected as `EmptyCommandInput` (the element type cannot be inferred), and so
is a module publish whose bytecode list is empty. -/
def checkCommandInput : TxCommand → Except UserInputError Unit
  | .makeMoveVec none [] => .error .emptyCommandInput
  | .makeMoveVec _ _ => .ok ()
  | .publishCmd mods => if mods.isEmpty then .error .emptyCommandInput else .ok ()
  | .moveCall _ => .ok ()

/-- Modelled from the spec: the input checks run over the whole command list
before execution; the first failure aborts the transaction. -/
def validateCommandInputs : List TxCommand → Except UserInputError Unit
  | [] => .ok ()
  | c :: cs =>
      match checkCommandInput c with
      | .error e => .error e
      | .ok _ => validateCommandInputs cs

/- ## Publication Gate: publish execution outcome (spec section 4.5) -/

/-- Execution failure kinds surfaced by a committed-but-failed transaction. -/
inductive ExecutionFailureStatus where
  | vmVerificationOrDeserializationError
  | commandArgumentFailure (arg_idx : Nat) (kind : CommandArgumentError)
deriving DecidableEq

/-- Execution status of a committed transaction, with the failing command
index when it failed. -/
inductive ExecutionStatus where
  | success
  | failure (error : ExecutionFailureStatus) (command : Option Nat)
deriving DecidableEq

/-- Whether a serialized module blob deserializes to a valid module.
Modelled from the spec and pinned by the test suite: an empty blob is not a
valid serialized module and fails bytecode deserialization. -/
def deserializesOk (blob : List Nat) : Bool := !blob.isEmpty

/-- Modelled from the spec: executing a module-publish command.  A module blob
that fails deserialization, or two modules with identical serialized content,
surface as a verification/deserialization failure at the publish command's
index (the test suite pins both outcomes and the index 0). -/
def execPublishCommand (mods : List (List Nat)) : ExecutionStatus :=
  if mods.all deserializesOk ∧ mods.Nodup then .success
  else .failure .vmVerificationOrDeserializationError (some 0)

/-- Outcome of submitting a transaction: rejected at input validation with no
state change, or executed (successfully or not). -/
inductive TxOutcome where
  | rejected (e : UserInputError)
  | executed (s : ExecutionStatus)
deriving DecidableEq

/-- Outcome of a single-command module-publish transaction: the input check of
the publish command runs first; only if it passes does execution run. -/
def publishTransactionOutcome (mods : List (List Nat)) : TxOutcome :=
  match checkCommandInput (.publishCmd mods) with
  | .error e => .rejected e
  | .ok _ => .executed (execPublishCommand mods)

/- ## Publication Gate: dependency checks (spec section 4.5) -/

/-- A package dependency as seen by the publication gate: its name, its
on-chain published address if any, and the names of its modules. -/
structure Dependency where
  name : String
  publishedAt : Option Nat
  modules : List String
deriving DecidableEq

/-- A package being published: its modules and its dependency list. -/
structure MovePackage where
  name : String
  modules : List String
  deps : List Dependency
deriving DecidableEq

/-- Dependencies split by publication status, as `gather_dependencies`
returns them. -/
structure Dependencies where
  published : List Dependency
  unpublished : List Dependency

/-- Modelled from the spec: `gather_dependencies` walks the package's
dependency graph and splits the dependencies into those with an on-chain
published address and those without. -/
def gather_dependencies (pkg : MovePackage) : Dependencies :=
  ⟨pkg.deps.filter fun d => d.publishedAt.isSome,
   pkg.deps.filter fun d => d.publishedAt.isNone⟩

/-- Publication-specific error carrying the names of the offending
unpublished dependencies. -/
inductive PublishError where
  | modulePublishFailure (offendingDeps : List String)
deriving DecidableEq

/-- Modelled from the spec: `check_unpublished_dependencies` fails with a
descriptive `ModulePublishFailure` naming every dependency that lacks a
published address, and succeeds when there are none. -/
def check_unpublished_dependencies (unpublished : List Dependency) :
    Except PublishError Unit :=
  if unpublished.isEmpty then .ok ()
  else .error (.modulePublishFailure (unpublished.map fun d => d.name))

/-- Module names contributed by a list of dependencies. -/
def depModules : List Dependency → List String
  | [] => []
  | d :: rest => d.modules ++ depModules rest

/-- Module map of the package object produced by a successful publish: the
package's own modules, plus — when the unpublished-dependency override is
supplied — the modules of every unpublished dependency, bundled in. -/
def publishedModuleMap (pkg : MovePackage) (withUnpublishedDeps : Bool) :
    List String :=
  if withUnpublishedDeps then
    pkg.modules ++ depModules (gather_dependencies pkg).unpublished
  else pkg.modules

/-- Modelled from the spec: publishing a package.  Without the override every
dependency must have a published on-chain address; with the override the
unpublished dependencies' modules are bundled into the same publish. -/
def publishPackage (pkg : MovePackage) (withUnpublishedDeps : Bool) :
    Except PublishError (List String) :=
  if withUnpublishedDeps then .ok (publishedModuleMap pkg true)
  else
    match check_unpublished_dependencies (gather_dependencies pkg).unpublished with
    | .error e => .error e
    | .ok _ => .ok (publishedModuleMap pkg false)

/- ## Ownership Model (spec section 4.2) -/

/-- Errors raised while authenticating a transaction's input objects.  The
ownership-chain error for an object-owned child is a distinct kind from the
generic authorization (wrong signer) error. -/
inductive InputCheckError where
  | invalidChildObjectArgument (child parentField : ObjectID)
  | incorrectSigner (account : Nat)
  | mutationOfImmutable
  | sharedObjectMisuse
deriving DecidableEq

/-- Modelled from the spec: the Ownership Model's authenticate operation for a
single-owner transaction input.  An address-owned object requires the
transaction signer to be its owner; an object-owned child presented directly
as a transaction input can never be authenticated this way (its authentication
chain runs through its parent, which the caller attempted to bypass), so it is
rejected with the distinct `InvalidChildObjectArgument` error, as the test
suite pins; a shared object is not permitted on the single-owner path. -/
def authenticate (signer : Nat) (input : ObjectID × Owner) :
    Except InputCheckError Unit :=
  match input.2 with
  | .addressOwner a => if a = signer then .ok () else .error (.incorrectSigner a)
  | .objectOwner f => .error (.invalidChildObjectArgument input.1 f)
  | .shared _ => .error .sharedObjectMisuse
  | .immutable => .ok ()

/-- Modelled from the spec: every input object of a transaction passes through
the Ownership Model; the first denial aborts the transaction. -/
def validateInputOwners (signer : Nat) :
    List (ObjectID × Owner) → Except InputCheckError Unit
  | [] => .ok ()
  | x :: rest =>
      match authenticate signer x with
      | .error e => .error e
      | .ok _ => validateInputOwners signer rest

/- ## Concrete transactions pinned by the test suite -/

/-- The transaction shape of the `same_objects` scenarios of
`test_entry_point_vector_error`, with the vector argument listed after the
scalar in the call: the vector is materialized by a MakeMoveVec command at
command index 0, and the call at command index 1 receives the scalar object
as argument 0 and the vector result as argument 1. -/
def sameObjectsTx : List TxCommand :=
  [.makeMoveVec (some 7) [5], .moveCall [.obj false 5, .result 0]]

/-- The same duplicate-use scenario with the argument order swapped inside the
call: the vector result is argument 0 and the scalar object argument 1. -/
def sameObjVecFirstTx : List TxCommand :=
  [.makeMoveVec (some 7) [5], .moveCall [.result 0, .obj false 5]]

/- ## Helper lemmas -/

theorem le_maxList_of_mem {v : Nat} {vs : List Nat} (h : v ∈ vs) : v ≤ maxList vs := by
  induction vs with
  | nil => cases h
  | cons a tl ih =>
      rcases List.mem_cons.mp h with rfl | htl
      · exact le_max_left _ _
      · exact le_trans (ih htl) (le_max_right _ _)

theorem self_lt_lamport (v : Nat) (ds : List Nat) : v < lamport_increment (v :: ds) := by
  have : v ≤ maxList (v :: ds) := le_max_left _ _
  simp only [lamport_increment]
  omega

theorem mem_ofClass {d : TxDiff} {i : ObjectID} {c : EffectClass} :
    i ∈ d.ofClass c ↔ ∃ w, (i, w) ∈ d.writes ∧ classify (d.preOf i) w = c := by
  simp only [TxDiff.ofClass, List.mem_map, List.mem_filter, decide_eq_true_eq]
  constructor
  · rintro ⟨⟨j, w⟩, ⟨hmem, hcl⟩, rfl⟩
    exact ⟨w, hmem, hcl⟩
  · rintro ⟨w, hmem, hcl⟩
    exact ⟨(i, w), ⟨hmem, hcl⟩, rfl⟩

theorem scanUses_error_kind (i : Nat) :
    ∀ (us : List (Nat × ObjectID)) (taken : List ObjectID) (e : ArgError),
    scanUses i taken us = .error e → e.kind = .invalidUsageOfTakenValue := by
  intro us
  induction us with
  | nil => intro taken e h; simp [scanUses] at h
  | cons u rest ih =>
      rcases u with ⟨ai, x⟩
      intro taken e h
      by_cases hx : x ∈ taken
      · simp only [scanUses] at h
        rw [if_pos hx] at h
        injection h with h2
        subst h2
        rfl
      · simp only [scanUses] at h
        rw [if_neg hx] at h
        exact ih _ _ h

theorem scanUses_ok_mem (i : Nat) :
    ∀ (us : List (Nat × ObjectID)) (taken t2 : List ObjectID),
    scanUses i taken us = .ok t2 →
    (∀ x ∈ taken, x ∈ t2) ∧ ∀ p ∈ us, p.2 ∈ t2 := by
  intro us
  induction us with
  | nil =>
      intro taken t2 h
      simp only [scanUses] at h
      injection h with h2
      subst h2
      exact ⟨fun x hx => hx, by simp⟩
  | cons u rest ih =>
      rcases u with ⟨ai, x⟩
      intro taken t2 h
      by_cases hx : x ∈ taken
      · simp only [scanUses] at h
        rw [if_pos hx] at h
        cases h
      · simp only [scanUses] at h
        rw [if_neg hx] at h
        obtain ⟨h1, h2⟩ := ih _ _ h
        refine ⟨fun y hy => h1 y (List.mem_cons_of_mem _ hy), ?_⟩
        intro p hp
        rcases List.mem_cons.mp hp with rfl | hp2
        · exact h1 x (List.mem_cons_self _ _)
        · exact h2 p hp2

theorem scanUses_error_of_taken (i : Nat) (ai : Nat) (x : ObjectID) :
    ∀ (us : List (Nat × ObjectID)) (taken : List ObjectID),
    x ∈ taken → (ai, x) ∈ us → ∃ e, scanUses i taken us = .error e := by
  intro us
  induction us with
  | nil => intro taken _ hu; cases hu
  | cons u rest ih =>
      rcases u with ⟨b, y⟩
      intro taken hx hu
      by_cases hy : y ∈ taken
      · exact ⟨⟨i, b, .invalidUsageOfTakenValue⟩, by
          simp only [scanUses]; rw [if_pos hy]⟩
      · have hrest : (ai, x) ∈ rest := by
          rcases List.mem_cons.mp hu with heq | h2
          · cases heq; exact absurd hx hy
          · exact h2
        obtain ⟨e, he⟩ := ih (y :: taken) (List.mem_cons_of_mem _ hx) hrest
        exact ⟨e, by simp only [scanUses]; rw [if_neg hy]; exact he⟩

theorem scanCommands_error_kind :
    ∀ (cs : List TxCommand) (i : Nat) (taken : List ObjectID) (e : ArgError),
    scanCommands i taken cs = .error e → e.kind = .invalidUsageOfTakenValue := by
  intro cs
  induction cs with
  | nil => intro i taken e h; simp [scanCommands] at h
  | cons c rest ih =>
      intro i taken e h
      cases hs : scanUses i taken c.objectUses with
      | error e2 =>
          simp only [scanCommands, hs] at h
          injection h with h2
          subst h2
          exact scanUses_error_kind i _ _ _ hs
      | ok t2 =>
          simp only [scanCommands, hs] at h
          exact ih _ _ _ h

theorem scanCommands_ok_mem :
    ∀ (cs : List TxCommand) (i : Nat) (taken t2 : List ObjectID),
    scanCommands i taken cs = .ok t2 →
    (∀ x ∈ taken, x ∈ t2) ∧ ∀ c ∈ cs, ∀ p ∈ c.objectUses, p.2 ∈ t2 := by
  intro cs
  induction cs with
  | nil =>
      intro i taken t2 h
      simp only [scanCommands] at h
      injection h with h2
      subst h2
      exact ⟨fun x hx => hx, by simp⟩
  | cons c rest ih =>
      intro i taken t2 h
      cases hs : scanUses i taken c.objectUses with
      | error e2 => simp [scanCommands, hs] at h
      | ok tm =>
          simp only [scanCommands, hs] at h
          obtain ⟨hm1, hm2⟩ := scanUses_ok_mem i _ _ _ hs
          obtain ⟨hr1, hr2⟩ := ih _ _ _ h
          refine ⟨fun y hy => hr1 y (hm1 y hy), ?_⟩
          intro c2 hc2 p hp
          rcases List.mem_cons.mp hc2 with rfl | hc2r
          · exact hr1 p.2 (hm2 p hp)
          · exact hr2 c2 hc2r p hp

theorem scanCommands_error_of_taken :
    ∀ (cs : List TxCommand) (i : Nat) (taken : List ObjectID)
      (c : TxCommand) (ai : Nat) (x : ObjectID),
    x ∈ taken → c ∈ cs → (ai, x) ∈ c.objectUses →
    ∃ e, scanCommands i taken cs = .error e := by
  intro cs
  induction cs with
  | nil => intro i taken c ai x _ hc _; cases hc
  | cons c0 rest ih =>
      intro i taken c ai x hx hc hu
      cases hs : scanUses i taken c0.objectUses with
      | error e2 => exact ⟨e2, by simp [scanCommands, hs]⟩
      | ok tm =>
          rcases List.mem_cons.mp hc with rfl | hcr
          · obtain ⟨e, he⟩ := scanUses_error_of_taken i ai x c.objectUses taken hx hu
            rw [he] at hs
            cases hs
          · have hxm : x ∈ tm := (scanUses_ok_mem i _ _ _ hs).1 x hx
            obtain ⟨e, he⟩ := ih (i + 1) tm c ai x hxm hcr hu
            exact ⟨e, by simp [scanCommands, hs, he]⟩

theorem scanCommands_error_two :
    ∀ (cs : List TxCommand) (i : Nat) (taken : List ObjectID)
      (c1 c2 : TxCommand) (a1 a2 : Nat) (x : ObjectID),
    c1 ∈ cs → c2 ∈ cs → c1 ≠ c2 →
    (a1, x) ∈ c1.objectUses → (a2, x) ∈ c2.objectUses →
    ∃ e, scanCommands i taken cs = .error e := by
  intro cs
  induction cs with
  | nil => intro i taken c1 c2 a1 a2 x h1 _ _ _ _; cases h1
  | cons c0 rest ih =>
      intro i taken c1 c2 a1 a2 x h1 h2 hne hu1 hu2
      cases hs : scanUses i taken c0.objectUses with
      | error e2 => exact ⟨e2, by simp [scanCommands, hs]⟩
      | ok tm =>
          rcases List.mem_cons.mp h1 with rfl | h1r
          · have h2r : c2 ∈ rest := by
              rcases List.mem_cons.mp h2 with rfl | h
              · exact absurd rfl hne
              · exact h
            have hxm : x ∈ tm := (scanUses_ok_mem i _ _ _ hs).2 (a1, x) hu1
            obtain ⟨e, he⟩ :=
              scanCommands_error_of_taken rest (i + 1) tm c2 a2 x hxm h2r hu2
            exact ⟨e, by simp [scanCommands, hs, he]⟩
          · rcases List.mem_cons.mp h2 with rfl | h2r
            · have hxm : x ∈ tm := (scanUses_ok_mem i _ _ _ hs).2 (a2, x) hu2
              obtain ⟨e, he⟩ :=
                scanCommands_error_of_taken rest (i + 1) tm c1 a1 x hxm h1r hu1
              exact ⟨e, by simp [scanCommands, hs, he]⟩
            · obtain ⟨e, he⟩ := ih (i + 1) tm c1 c2 a1 a2 x h1r h2r hne hu1 hu2
              exact ⟨e, by simp [scanCommands, hs, he]⟩

theorem objUse_of_arg (r : Bool) (x : ObjectID) :
    ∀ (args : List CallArg) (k : Nat),
    CallArg.obj r x ∈ args → ∃ ai, (ai, x) ∈ collectObjArgs k args := by
  intro args
  induction args with
  | nil => intro k h; cases h
  | cons a rest ih =>
      intro k h
      rcases List.mem_cons.mp h with rfl | h2
      · exact ⟨k, by simp [collectObjArgs]⟩
      · obtain ⟨ai, hai⟩ := ih (k + 1) h2
        cases a with
        | obj r2 y =>
            exact ⟨ai, by
              simp only [collectObjArgs, List.mem_cons]; exact Or.inr hai⟩
        | pure bs => exact ⟨ai, by simp only [collectObjArgs]; exact hai⟩
        | result m => exact ⟨ai, by simp only [collectObjArgs]; exact hai⟩

theorem objUse_of_elem (x : ObjectID) :
    ∀ (elems : List ObjectID) (k : Nat),
    x ∈ elems → ∃ ai, (ai, x) ∈ withIdx k elems := by
  intro elems
  induction elems with
  | nil => intro k h; cases h
  | cons y rest ih =>
      intro k h
      rcases List.mem_cons.mp h with rfl | h2
      · exact ⟨k, by simp [withIdx]⟩
      · obtain ⟨ai, hai⟩ := ih (k + 1) h2
        exact ⟨ai, by simp only [withIdx, List.mem_cons]; exact Or.inr hai⟩

theorem checkCommandInput_error_kind :
    ∀ (c : TxCommand) (e : UserInputError),
    checkCommandInput c = .error e → e = .emptyCommandInput := by
  intro c e h
  cases c with
  | moveCall args => simp [checkCommandInput] at h
  | makeMoveVec tag elems =>
      cases tag with
      | none =>
          cases elems with
          | nil => simp [checkCommandInput] at h; exact h.symm
          | cons a as => simp [checkCommandInput] at h
      | some t => simp [checkCommandInput] at h
  | publishCmd mods =>
      by_cases hm : mods.isEmpty <;> simp [checkCommandInput, hm] at h
      exact h.symm

theorem validateCommandInputs_error_of_mem :
    ∀ (cmds : List TxCommand),
    TxCommand.makeMoveVec none [] ∈ cmds →
    validateCommandInputs cmds = .error .emptyCommandInput := by
  intro cmds
  induction cmds with
  | nil => intro h; cases h
  | cons c rest ih =>
      intro h
      rcases List.mem_cons.mp h with rfl | h2
      · simp [validateCommandInputs, checkCommandInput]
      · cases hc : checkCommandInput c with
        | error e =>
            have he := checkCommandInput_error_kind c e hc
            subst he
            simp [validateCommandInputs, hc]
        | ok u =>
            simp only [validateCommandInputs, hc]
            exact ih h2

theorem mem_depModules :
    ∀ (ds : List Dependency) (d : Dependency) (m : String),
    d ∈ ds → m ∈ d.modules → m ∈ depModules ds := by
  intro ds
  induction ds with
  | nil => intro d m h _; cases h
  | cons a rest ih =>
      intro d m h hm
      rcases List.mem_cons.mp h with rfl | h2
      · simp only [depModules]
        exact List.mem_append_left _ hm
      · simp only [depModules]
        exact List.mem_append_right _ (ih d m h2 hm)

theorem validateInputOwners_first_error :
    ∀ (inputs : List (ObjectID × Owner)) (signer : Nat) (child f : ObjectID),
    (child, Owner.objectOwner f) ∈ inputs →
    (∀ x ∈ inputs, x ≠ (child, Owner.objectOwner f) →
      authenticate signer x = .ok ()) →
    validateInputOwners signer inputs =
      .error (.invalidChildObjectArgument child f) := by
  intro inputs
  induction inputs with
  | nil => intro s c f h _; cases h
  | cons a rest ih =>
      intro s c f h hok
      by_cases ha : a = (c, Owner.objectOwner f)
      · subst ha
        simp [validateInputOwners, authenticate]
      · have h2 : (c, Owner.objectOwner f) ∈ rest := by
          rcases List.mem_cons.mp h with heq | hm
          · exact absurd heq.symm ha
          · exact hm
        have hao := hok a (List.mem_cons_self _ _) ha
        simp only [validateInputOwners, hao]
        exact ih s c f h2 fun x hx hne => hok x (List.mem_cons_of_mem _ hx) hne

/- ## Claim theorems -/

/-- Claim C1: every object written by a transaction — created, mutated,
wrapped or unwrapped — is assigned the new version 1 + max of the versions of
all objects the write causally depends on (its own prior version if any, plus
every other object read or written by the same transaction, including the gas
object), and that version is strictly greater than every dependency's
version. -/
theorem written_version_is_lamport_successor (t : TxWriteSet) (r : ObjectRef)
    (hr : r ∈ assignVersions t) :
    r.2.1 = 1 + maxList t.inputVersions ∧ ∀ v ∈ t.inputVersions, v < r.2.1 := by
  rcases List.mem_map.mp hr with ⟨w, _, rfl⟩
  constructor
  · simp [lamport_increment, Nat.add_comm]
  · intro v hv
    have hle := le_maxList_of_mem hv
    show v < lamport_increment t.inputVersions
    exact Nat.lt_succ_of_le hle

/-- Witness for C1 on a concrete transaction: gas at version 3 and an input at
version 5; the created object is stamped with version 6 = 1 + max. -/
theorem written_version_is_lamport_successor_witness :
    ((9, 6, Digest.live 11) : ObjectRef) ∈
      assignVersions ⟨[3, 5], [(9, .createK, 11)]⟩ ∧
    ((9, 6, Digest.live 11) : ObjectRef).2.1 = 1 + maxList [3, 5] ∧
    ∀ v ∈ [3, 5], v < ((9, 6, Digest.live 11) : ObjectRef).2.1 :=
  ⟨by decide,
   written_version_is_lamport_successor ⟨[3, 5], [(9, .createK, 11)]⟩
     (9, 6, Digest.live 11) (by decide)⟩

/-- Claim C2: wrapping a live object and then unwrapping it preserves its
ObjectID, strictly increases the version at each of the two transitions, and
the digest goes live, then the WRAPPED sentinel, then live again — the
intermediate state is never a live digest. -/
theorem wrap_unwrap_round_trip (o : ObjSnapshot) (ds1 ds2 : List Version)
    (d0 dnew : Nat) (hlive : o.digest = .live d0) :
    (wrapStep o ds1).id = o.id ∧
    (unwrapStep (wrapStep o ds1) ds2 dnew).id = o.id ∧
    o.version < (wrapStep o ds1).version ∧
    (wrapStep o ds1).version < (unwrapStep (wrapStep o ds1) ds2 dnew).version ∧
    (wrapStep o ds1).digest = .wrappedSentinel ∧
    (unwrapStep (wrapStep o ds1) ds2 dnew).digest = .live dnew ∧
    ∀ f, (wrapStep o ds1).digest ≠ .live f := by
  refine ⟨rfl, rfl, ?_, ?_, rfl, rfl, ?_⟩
  · exact self_lt_lamport _ _
  · exact self_lt_lamport _ _
  · intro f h
    exact Digest.noConfusion h

/-- Witness for C2 at a concrete live object. -/
theorem wrap_unwrap_round_trip_witness :
    (wrapStep ⟨4, 2, .live 0⟩ [3]).id = (⟨4, 2, .live 0⟩ : ObjSnapshot).id ∧
    (unwrapStep (wrapStep ⟨4, 2, .live 0⟩ [3]) [5] 8).id =
      (⟨4, 2, .live 0⟩ : ObjSnapshot).id ∧
    (⟨4, 2, .live 0⟩ : ObjSnapshot).version < (wrapStep ⟨4, 2, .live 0⟩ [3]).version ∧
    (wrapStep ⟨4, 2, .live 0⟩ [3]).version <
      (unwrapStep (wrapStep ⟨4, 2, .live 0⟩ [3]) [5] 8).version ∧
    (wrapStep ⟨4, 2, .live 0⟩ [3]).digest = .wrappedSentinel ∧
    (unwrapStep (wrapStep ⟨4, 2, .live 0⟩ [3]) [5] 8).digest = .live 8 ∧
    ∀ f, (wrapStep ⟨4, 2, .live 0⟩ [3]).digest ≠ .live f :=
  wrap_unwrap_round_trip ⟨4, 2, .live 0⟩ [3] [5] 0 8 rfl

/-- Claim C3: a transaction that deletes a parent with a prior top-level
version together with its one wrapped child (known before the transaction
only as embedded state, never independently created in it) produces exactly
one entry in deleted — the parent — and exactly one entry in
unwrapped_then_deleted — the child. -/
theorem delete_parent_with_wrapped_child_effects (g p c : ObjectID)
    (vg vp : Version) (dg : Nat) (hgp : g ≠ p) (hgc : g ≠ c) (hpc : p ≠ c) :
    (deleteParentDiff g p c vg vp dg).deleted = [p] ∧
    (deleteParentDiff g p c vg vp dg).unwrapped_then_deleted = [c] := by
  constructor <;>
    simp [deleteParentDiff, TxDiff.deleted, TxDiff.unwrapped_then_deleted,
      TxDiff.ofClass, TxDiff.preOf, lookupPre, classify, List.filter,
      hgp, hgc, hpc, Ne.symm hgp, Ne.symm hgc, Ne.symm hpc]

/-- Witness for C3 at concrete object ids. -/
theorem delete_parent_with_wrapped_child_effects_witness :
    (deleteParentDiff 0 1 2 6 4 9).deleted = [1] ∧
    (deleteParentDiff 0 1 2 6 4 9).unwrapped_then_deleted = [2] :=
  delete_parent_with_wrapped_child_effects 0 1 2 6 4 9
    (by decide) (by decide) (by decide)

/-- Claim C9: the effects record's modified_at_versions set contains, for
every touched pre-existing object (one with a pre-image version, the gas
object included), exactly the pair of its id and its version as seen at the
start of the transaction, and nothing else. -/
theorem modified_at_versions_exactly_preimage (d : TxDiff) (i : ObjectID)
    (v : Version) :
    (i, v) ∈ d.modified_at_versions ↔
      (∃ w, (i, w) ∈ d.writes) ∧ d.preOf i = .liveAt v := by
  simp only [TxDiff.modified_at_versions, List.mem_filterMap]
  constructor
  · rintro ⟨⟨j, w⟩, hmem, hf⟩
    cases hpre : d.preOf j <;> simp only [hpre] at hf
    · rcases hf with ⟨rfl, rfl⟩
      exact ⟨⟨w, hmem⟩, hpre⟩
    · cases hf
    · cases hf
  · rintro ⟨⟨w, hw⟩, hpre⟩
    exact ⟨(i, w), hw, by simp [hpre]⟩

/-- Claim C10: an object never independently live — created and immediately
wrapped within one transaction, or removed by a cascade while its pre-state
was never a top-level version — appears in none of the effects classification
sets: not created, mutated, wrapped, unwrapped, deleted, nor
unwrapped_then_deleted. -/
theorem never_independently_live_unclassified (d : TxDiff) (i : ObjectID)
    (hpre : d.preOf i = .absent)
    (hk : ∀ w, (i, w) ∈ d.writes → w = .outWrapped ∨ w = .outRemoved) :
    i ∉ d.created ∧ i ∉ d.mutated ∧ i ∉ d.wrapped ∧ i ∉ d.unwrapped ∧
    i ∉ d.deleted ∧ i ∉ d.unwrapped_then_deleted := by
  have key : ∀ c, c ≠ EffectClass.unclassified → i ∉ d.ofClass c := by
    intro c hc hmem
    rcases mem_ofClass.mp hmem with ⟨w, hw, hcl⟩
    rcases hk w hw with rfl | rfl <;> rw [hpre] at hcl <;>
      simp only [classify] at hcl <;> exact hc hcl.symm
  exact ⟨key _ (by decide), key _ (by decide), key _ (by decide),
    key _ (by decide), key _ (by decide), key _ (by decide)⟩

/-- Witness for C10: the child of the cited tests, created and wrapped in one
transaction (write outWrapped, no pre-state), is classified nowhere. -/
theorem never_independently_live_unclassified_witness :
    (3 : ObjectID) ∉ (⟨[(0, .liveAt 5)], [(0, .outLive 1), (3, .outWrapped)]⟩ : TxDiff).created ∧
    (3 : ObjectID) ∉ (⟨[(0, .liveAt 5)], [(0, .outLive 1), (3, .outWrapped)]⟩ : TxDiff).mutated ∧
    (3 : ObjectID) ∉ (⟨[(0, .liveAt 5)], [(0, .outLive 1), (3, .outWrapped)]⟩ : TxDiff).wrapped ∧
    (3 : ObjectID) ∉ (⟨[(0, .liveAt 5)], [(0, .outLive 1), (3, .outWrapped)]⟩ : TxDiff).unwrapped ∧
    (3 : ObjectID) ∉ (⟨[(0, .liveAt 5)], [(0, .outLive 1), (3, .outWrapped)]⟩ : TxDiff).deleted ∧
    (3 : ObjectID) ∉ (⟨[(0, .liveAt 5)], [(0, .outLive 1), (3, .outWrapped)]⟩ : TxDiff).unwrapped_then_deleted :=
  never_independently_live_unclassified
    ⟨[(0, .liveAt 5)], [(0, .outLive 1), (3, .outWrapped)]⟩ 3
    (by decide)
    (by intro w hw; simp at hw; exact Or.inl hw)

/-- Claim C4 counterexample: in the transaction of the cited test (the vector
materialized by MakeMoveVec at command 0 and the call at command 1), the
reported error index is command 1 with the scalar argument's index — exactly
the pair the test asserts — and not the vector's command/argument index; with
the call's argument order swapped the reported pair is (1, 1), again the
scalar's position, while the vector sits at command 0 (its element at
index 0) and at argument 0 of the call. -/
theorem same_objects_error_not_at_vector_index :
    validateArgUsage sameObjectsTx =
      .error ⟨1, 0, .invalidUsageOfTakenValue⟩ ∧
    sameObjectsTx =
      [.makeMoveVec (some 7) [5], .moveCall [.obj false 5, .result 0]] ∧
    validateArgUsage sameObjVecFirstTx =
      .error ⟨1, 1, .invalidUsageOfTakenValue⟩ ∧
    sameObjVecFirstTx =
      [.makeMoveVec (some 7) [5], .moveCall [.result 0, .obj false 5]] :=
  ⟨rfl, rfl, rfl, rfl⟩

/-- Claim C4 (amended): a transaction that passes the same object id both as
a scalar object argument of a call and inside a vector-of-objects argument
always fails with InvalidUsageOfTakenValue, regardless of argument order and
of whether the scalar use is by value or by reference; the reported
(command, argument) index is the first offending use — the id's second
appearance in command order, which in the cited tests is the call's scalar
argument (command 1, argument 0) because the vector is materialized first —
not the vector's own index. -/
theorem same_id_scalar_and_vector_rejected (cmds : List TxCommand)
    (args : List CallArg) (tag : Option TypeTagId) (elems : List ObjectID)
    (r : Bool) (x : ObjectID)
    (hcall : TxCommand.moveCall args ∈ cmds)
    (hvec : TxCommand.makeMoveVec tag elems ∈ cmds)
    (harg : CallArg.obj r x ∈ args) (helem : x ∈ elems) :
    ∃ e, validateArgUsage cmds = .error e ∧
      e.kind = .invalidUsageOfTakenValue := by
  obtain ⟨a1, hu1⟩ := objUse_of_arg r x args 0 harg
  obtain ⟨a2, hu2⟩ := objUse_of_elem x elems 0 helem
  have hne : TxCommand.moveCall args ≠ TxCommand.makeMoveVec tag elems := by
    intro h
    exact TxCommand.noConfusion h
  obtain ⟨e, he⟩ :=
    scanCommands_error_two cmds 0 [] (.moveCall args) (.makeMoveVec tag elems)
      a1 a2 x hcall hvec hne hu1 hu2
  exact ⟨e, by simp [validateArgUsage, he],
    scanCommands_error_kind cmds 0 [] e he⟩

/-- Witness for the amended C4 at the transaction shape of the cited test. -/
theorem same_id_scalar_and_vector_rejected_witness :
    ∃ e, validateArgUsage sameObjectsTx = .error e ∧
      e.kind = .invalidUsageOfTakenValue :=
  same_id_scalar_and_vector_rejected sameObjectsTx [.obj false 5, .result 0]
    (some 7) [5] false 5 (by decide) (by decide) (by decide) (by decide)

/-- Claim C5: a vector-of-objects construction with no element type tag and
zero elements always makes input validation fail with EmptyCommandInput,
while the identical construction with an explicit type tag and zero elements
passes the input check. -/
theorem make_move_vec_empty_requires_tag (cmds : List TxCommand)
    (tag : TypeTagId) (h : TxCommand.makeMoveVec none [] ∈ cmds) :
    validateCommandInputs cmds = .error .emptyCommandInput ∧
    checkCommandInput (.makeMoveVec (some tag) []) = .ok () :=
  ⟨validateCommandInputs_error_of_mem cmds h, rfl⟩

/-- Witness for C5 at a concrete transaction. -/
theorem make_move_vec_empty_requires_tag_witness :
    validateCommandInputs [TxCommand.makeMoveVec none []] =
      .error .emptyCommandInput ∧
    checkCommandInput (.makeMoveVec (some 7) []) = .ok () :=
  make_move_vec_empty_requires_tag [.makeMoveVec none []] 7 (by decide)

/-- Claim C6 counterexample: a publish whose module list holds one empty blob
is not rejected with EmptyCommandInput; it passes input validation and fails
execution with VMVerificationOrDeserializationError at command 0, exactly as
the test suite asserts. -/
theorem publish_single_empty_blob_not_input_rejected :
    publishTransactionOutcome [[]] =
      .executed (.failure .vmVerificationOrDeserializationError (some 0)) ∧
    publishTransactionOutcome [[]] ≠ .rejected .emptyCommandInput := by
  decide

/-- Claim C6 (amended): a module-publish transaction is rejected with
EmptyCommandInput when its module bytecode list is empty; a non-empty list
containing only empty module blobs instead passes input validation and fails
execution with VMVerificationOrDeserializationError at command 0. -/
theorem publish_empty_list_vs_empty_blobs (mods : List (List Nat))
    (hne : mods ≠ []) (hall : ∀ m ∈ mods, m = []) :
    publishTransactionOutcome [] = .rejected .emptyCommandInput ∧
    publishTransactionOutcome mods =
      .executed (.failure .vmVerificationOrDeserializationError (some 0)) := by
  refine ⟨by decide, ?_⟩
  cases mods with
  | nil => exact absurd rfl hne
  | cons m rest =>
      have hm : m = [] := hall m (List.mem_cons_self _ _)
      subst hm
      simp [publishTransactionOutcome, checkCommandInput, execPublishCommand,
        deserializesOk]

/-- Witness for the amended C6 at a concrete module list. -/
theorem publish_empty_list_vs_empty_blobs_witness :
    publishTransactionOutcome [] = .rejected .emptyCommandInput ∧
    publishTransactionOutcome [[], []] =
      .executed (.failure .vmVerificationOrDeserializationError (some 0)) :=
  publish_empty_list_vs_empty_blobs [[], []] (by decide) (by decide)

/-- Claim C7: publishing a package with a dependency lacking a published
on-chain address fails with ModulePublishFailure naming that dependency; the
identical publish with the unpublished-dependency override succeeds and the
resulting package's module map includes the dependency's modules. -/
theorem unpublished_dependency_gate (pkg : MovePackage) (dep : Dependency)
    (hdep : dep ∈ pkg.deps) (hnone : dep.publishedAt = none) :
    (∃ names, publishPackage pkg false = .error (.modulePublishFailure names) ∧
      dep.name ∈ names) ∧
    (∃ mm, publishPackage pkg true = .ok mm ∧ ∀ m ∈ dep.modules, m ∈ mm) := by
  have hun : dep ∈ (gather_dependencies pkg).unpublished := by
    simp [gather_dependencies, List.mem_filter, hdep, hnone]
  have hie : ((gather_dependencies pkg).unpublished).isEmpty = false := by
    cases hl : (gather_dependencies pkg).unpublished with
    | nil => rw [hl] at hun; cases hun
    | cons a l => rfl
  constructor
  · refine ⟨(gather_dependencies pkg).unpublished.map (fun d => d.name), ?_, ?_⟩
    · simp [publishPackage, check_unpublished_dependencies, hie]
    · exact List.mem_map_of_mem _ hun
  · refine ⟨publishedModuleMap pkg true, rfl, ?_⟩
    intro m hm
    simp only [publishedModuleMap, if_pos]
    exact List.mem_append_right _ (mem_depModules _ dep m hun hm)

/-- Witness for C7 at the package of the cited test: depends_on_basics with
its unpublished dependency object_basics. -/
theorem unpublished_dependency_gate_witness :
    (∃ names,
      publishPackage
        (MovePackage.mk "depends_on_basics" [ "depends_on_basics" ]
          [Dependency.mk "object_basics" none [ "object_basics" ]]) false =
        .error (.modulePublishFailure names) ∧
      (Dependency.mk "object_basics" none [ "object_basics" ]).name ∈ names) ∧
    (∃ mm,
      publishPackage
        (MovePackage.mk "depends_on_basics" [ "depends_on_basics" ]
          [Dependency.mk "object_basics" none [ "object_basics" ]]) true =
        .ok mm ∧
      ∀ m ∈ (Dependency.mk "object_basics" none [ "object_basics" ]).modules,
        m ∈ mm) :=
  unpublished_dependency_gate
    (MovePackage.mk "depends_on_basics" [ "depends_on_basics" ]
      [Dependency.mk "object_basics" none [ "object_basics" ]])
    (Dependency.mk "object_basics" none [ "object_basics" ])
    (List.mem_cons_self _ _) rfl

/-- Claim C8: an object owned by another object (ObjectOwner), passed directly
as a transaction input, makes the transaction fail with the distinct
ownership-chain error InvalidChildObjectArgument — not the generic
authorization (wrong signer) error — and this does not depend on what the
other inputs are, so it holds whether the child is a scalar argument or the
parent travels in a vector argument, and in particular whenever the
authenticating parent is not present. -/
theorem child_without_parent_distinct_error (signer : Nat)
    (inputs : List (ObjectID × Owner)) (child f : ObjectID)
    (hchild : (child, Owner.objectOwner f) ∈ inputs)
    (hothers : ∀ x ∈ inputs, x ≠ (child, Owner.objectOwner f) →
      authenticate signer x = .ok ()) :
    validateInputOwners signer inputs =
      .error (.invalidChildObjectArgument child f) ∧
    authenticate signer (child, Owner.objectOwner f) =
      .error (.invalidChildObjectArgument child f) ∧
    ∀ a, (InputCheckError.invalidChildObjectArgument child f) ≠
      .incorrectSigner a :=
  ⟨validateInputOwners_first_error inputs signer child f hchild hothers, rfl,
   fun _ h => InputCheckError.noConfusion h⟩

/-- Witness for C8: signer 1 passes child object 5 (owned by parent field 9)
directly, alongside the parent-field object itself as an ordinary
address-owned input. -/
theorem child_without_parent_distinct_error_witness :
    validateInputOwners 1 [(5, Owner.objectOwner 9), (9, Owner.addressOwner 1)] =
      .error (.invalidChildObjectArgument 5 9) ∧
    authenticate 1 (5, Owner.objectOwner 9) =
      .error (.invalidChildObjectArgument 5 9) ∧
    ∀ a, (InputCheckError.invalidChildObjectArgument 5 9) ≠
      .incorrectSigner a :=
  child_without_parent_distinct_error 1
    [(5, .objectOwner 9), (9, .addressOwner 1)] 5 9 (by decide)
    (by
      intro x hx hne
      simp only [List.mem_cons, List.not_mem_nil, or_false] at hx
      rcases hx with rfl | rfl
      · exact absurd rfl hne
      · rfl)
